import Mathlib

/-!
# Agent routes (`routes/agent.js`)

A shallow embedding of the Express router in `routes/agent.js`: the registration
route, the eight view routes, and the profile, password and account-deletion
routes, together with the store calls they make.

The route handlers are translated from the source.  The collaborators the source
only imports (`../models/User`, `../middleware/auth`, `jsonwebtoken`) are not part
of the source tree; what the handlers need from them is described next to each
of the store calls, and what depends on the schema of `User` (validators, password
hashing, password comparison) is a field of `Config`, so that the theorems hold for every
schema.  The unique index on `email` is taken from the spec, whose data model has
`email (unique)`.

Values read from `req.body` and from a record may be absent (`undefined`), hence
`Option String` throughout.

The store is the list of its documents.  A store call throws when the data make it
throw: a validator of the schema rejects the document, a key is duplicated, the document
to save is gone.  Failures of the connection to the database are outside the model, so a
lookup and a delete always return.  The call `jwt.sign` throws when `JWT_SECRET` is not
set or empty.

Requests are handled one at a time: a handler runs on the store the previous one left.
-/

namespace Agent

/-! ## Data model -/

/-- A document of the `User` collection (used for both users and agents). -/
structure User where
  _id : Nat
  username : Option String
  email : Option String
  password : Option String
  role : Option String
  agentId : Option String
  agency : Option String
  phone : Option String
  bio : Option String
deriving DecidableEq, Repr

/-- The credential store: the documents of the `User` collection, in insertion order. -/
abbrev Store := List User

/-- The update document handed to `User.findByIdAndUpdate` by `POST /profile`. -/
structure Update where
  username : Option String
  email : Option String
  agentId : Option String
  phone : Option String
  agency : Option String
  bio : Option String
deriving DecidableEq, Repr

/-- The ways a store call can throw. -/
inductive Fault where
  | validation
  | duplicateKey
  | documentNotFound
deriving DecidableEq, Repr

/-- What the handlers depend on but the source does not contain: the process
environment and the schema of `models/User`. -/
structure Config where
  /-- The value of `process.env.JWT_SECRET`: `none` when the variable is not set. -/
  JWT_SECRET : Option String
  /-- Document validation run by `save()`. -/
  validDoc : User → Bool
  /-- Update validators run by `findByIdAndUpdate` under `runValidators: true`. -/
  validUpdate : Update → Bool
  /-- Whether `undefined` keys of an update document are dropped (otherwise they
  are written as `null`). -/
  omitUndefined : Bool
  /-- The one-way hash applied to a modified password when a document is saved. -/
  hash : String → String
  /-- The method `matchPassword` of a document: `none` when the comparison throws. -/
  matchPassword : User → Option String → Option Bool

/-! ## Request bodies -/

/-- The body of `POST /register`: the six fields the handler reads, and a `role` key,
which a client may send but the handler does not read. -/
structure RegisterBody where
  agentname : Option String
  agentemail : Option String
  agentpassword : Option String
  agentid : Option String
  agency : Option String
  phone : Option String
  role : Option String
deriving DecidableEq, Repr

/-- Fields read from `req.body` by `POST /profile`. -/
structure ProfileBody where
  agentname : Option String
  agentemail : Option String
  agentid : Option String
  phone : Option String
  agency : Option String
  bio : Option String
deriving DecidableEq, Repr

/-- Fields read from `req.body` by `POST /change-password`. -/
structure PasswordBody where
  currentPassword : Option String
  newPassword : Option String
deriving DecidableEq, Repr

/-! ## Tokens -/

/-- A signed token: the payload, the registered claims `iat` and `exp` (seconds)
and the key it was signed with (standing for the signature). -/
structure Token where
  id : Nat
  role : Option String
  iat : Nat
  exp : Nat
  key : String
deriving DecidableEq, Repr

/-- The payload `{ id, role }` passed to `jwt.sign`. -/
structure Payload where
  id : Nat
  role : Option String
deriving DecidableEq, Repr

namespace jwt

/-- The call `jwt.sign(payload, secret, { expiresIn })` at time `now`, with `expiresIn` in
seconds.  It throws (`none`) when the secret is undefined or the empty string
(`secretOrPrivateKey must have a value`); otherwise the token carries the payload,
`iat = now` and `exp = now + expiresIn`. -/
def sign (payload : Payload) (secret : Option String) (expiresIn : Nat) (now : Nat) :
    Option Token :=
  match secret with
  | none => none
  | some key =>
    if key = "" then none
    else some { id := payload.id, role := payload.role, iat := now, exp := now + expiresIn,
                key := key }

/-- Modelled from the spec: Token Service `verify` (used by `middleware/auth`, which is
not in the source): checks signature and expiry, and fails at or after expiry. -/
def verify (token : Token) (secret : Option String) (now : Nat) : Option Payload :=
  if some token.key = secret ∧ now < token.exp then some { id := token.id, role := token.role }
  else none

end jwt

/-- The span `'1h'` in seconds. -/
def oneHour : Nat := 3600

/-! ## Store calls -/

/-- The call `User.findOne({ email })`: the first document whose `email` equals the filter
value (an `undefined` filter value matches a document without an email). -/
def findOne (st : Store) (email : Option String) : Option User :=
  st.find? (fun r => r.email == email)

/-- The call `User.findById(id)`: the document with that `_id`. -/
def findById (st : Store) (id : Nat) : Option User :=
  st.find? (fun r => r._id == id)

/-- Replace the first document whose `_id` is `id` by `doc`. -/
def replaceById (id : Nat) (doc : User) : Store → Store
  | [] => []
  | r :: rs => if r._id == id then doc :: rs else r :: replaceById id doc rs

/-- Modelled from the spec: the unique index on `email` of the `User` collection
(`models/User` is not in the source; the data model of the spec has `email (unique)` and
its store offers lookup by unique field).  A write that leaves `email` on the document
`id` is rejected when another document holds that email; this is the test. -/
def emailTaken (st : Store) (id : Nat) (email : Option String) : Bool :=
  st.any (fun r => r._id != id && r.email == email)

/-- The call `save()` on a document built by `new User(...)`: validate, hash the password,
insert.  The insert is rejected when the `_id` is taken, or when the email is taken. -/
def saveNew (cfg : Config) (st : Store) (doc : User) : Except Fault Store :=
  if !cfg.validDoc doc then .error .validation
  else if st.any (fun r => r._id == doc._id) then .error .duplicateKey
  else if emailTaken st doc._id doc.email then .error .duplicateKey
  else .ok (st ++ [{ doc with password := doc.password.map cfg.hash }])

/-- One `$set` entry of an update document. -/
def setField (omitUndefined : Bool) (old new : Option String) : Option String :=
  match new with
  | some v => some v
  | none => if omitUndefined then old else none

/-- The document after the update document has been applied to it. -/
def applyUpdate (cfg : Config) (old : User) (upd : Update) : User :=
  { old with
    username := setField cfg.omitUndefined old.username upd.username
    email := setField cfg.omitUndefined old.email upd.email
    agentId := setField cfg.omitUndefined old.agentId upd.agentId
    phone := setField cfg.omitUndefined old.phone upd.phone
    agency := setField cfg.omitUndefined old.agency upd.agency
    bio := setField cfg.omitUndefined old.bio upd.bio }

/-- The call `User.findByIdAndUpdate(id, update, { new: true, runValidators: true })`: the
update validators run first; then the document with that `_id` is updated in place and the
updated document returned, or `null` when there is none (nothing is inserted).  The write
is rejected when another document holds the new email. -/
def findByIdAndUpdate (cfg : Config) (st : Store) (id : Nat) (upd : Update) :
    Except Fault (Option User × Store) :=
  if !cfg.validUpdate upd then .error .validation
  else
    match findById st id with
    | none => .ok (none, st)
    | some old =>
      let doc := applyUpdate cfg old upd
      if emailTaken st id doc.email then .error .duplicateKey
      else .ok (some doc, replaceById id doc st)

/-- The call `save()` on a loaded document whose `password` has been assigned: validate,
hash the password, write the `password` path of the stored document.  It throws when the
document is no longer in the collection. -/
def saveModified (cfg : Config) (st : Store) (doc : User) : Except Fault Store :=
  if !cfg.validDoc doc then .error .validation
  else
    match findById st doc._id with
    | none => .error .documentNotFound
    | some old => .ok (replaceById doc._id { old with password := doc.password.map cfg.hash } st)

/-- The call `User.findByIdAndDelete(id)`: removes the document with that `_id`. -/
def findByIdAndDelete (st : Store) (id : Nat) : Store :=
  st.eraseP (fun r => r._id == id)

/-! ## Responses and effects -/

/-- A cookie operation on the response. -/
inductive CookieOp where
  /-- The call `res.cookie(name, token, { httpOnly })`. -/
  | set (name : String) (token : Token) (httpOnly : Bool)
  /-- The call `res.clearCookie(name)`. -/
  | clear (name : String)
deriving DecidableEq, Repr

/-- What the handler sends. -/
inductive Body where
  /-- The call `res.send(text)`. -/
  | text (s : String)
  /-- The call `res.render(view, locals)`. -/
  | view (name : String) (locals : List (String × Option String))
  /-- The call `res.redirect(url)`. -/
  | redirect (url : String)
deriving DecidableEq, Repr

/-- The response: status, what is sent, and the cookie operations in order. -/
structure Response where
  status : Nat
  body : Body
  cookies : List CookieOp
deriving DecidableEq, Repr

/-- A call made to the store or to a loaded document. -/
inductive StoreCall where
  | findOne (email : Option String)
  | save (doc : User)
  | findByIdAndUpdate (id : Nat) (upd : Update)
  | findByIdAndDelete (id : Nat)
  | matchPassword (id : Nat) (candidate : Option String)
deriving DecidableEq, Repr

/-- The result of running a handler: the response, the store afterwards, the store calls
made, and the tokens signed. -/
structure Outcome where
  res : Response
  store : Store
  calls : List StoreCall
  signed : List Token
deriving DecidableEq, Repr

/-- Sends `res.status(code).send(text)`. -/
def send (code : Nat) (text : String) : Response :=
  { status := code, body := .text text, cookies := [] }

/-- Sends `res.render(view, locals)`. -/
def render (view : String) (locals : List (String × Option String)) : Response :=
  { status := 200, body := .view view locals, cookies := [] }

/-- Sends `res.redirect(url)` after the cookie operations `cookies`. -/
def redirect (url : String) (cookies : List CookieOp) : Response :=
  { status := 302, body := .redirect url, cookies := cookies }

/-- The response `res.status(403).send('Forbidden')` of the role check, with nothing else
done. -/
def forbidden (st : Store) : Outcome :=
  { res := send 403 "Forbidden", store := st, calls := [], signed := [] }

/-! ## Handlers -/

/-- The document `new User({ ... })` built by `POST /register`; `newId` is the `_id` the
constructor generates. -/
def newUser (newId : Nat) (body : RegisterBody) : User :=
  { _id := newId
    username := body.agentname
    email := body.agentemail
    password := body.agentpassword
    agentId := body.agentid
    agency := body.agency
    phone := body.phone
    role := some "agent"
    bio := none }

/-- Handler of `router.post('/register')`, run at time `now`.  The `catch` branch is
reached from `save()` and from `jwt.sign`; in the second case the document is already
stored. -/
def register (cfg : Config) (now : Nat) (newId : Nat) (st : Store) (body : RegisterBody) :
    Outcome :=
  match findOne st body.agentemail with
  | some _ =>
    { res := send 400 "Agent with this email already exists", store := st,
      calls := [.findOne body.agentemail], signed := [] }
  | none =>
    let newUser := newUser newId body
    match saveNew cfg st newUser with
    | .error _ =>
      { res := send 500 "Error registering agent", store := st,
        calls := [.findOne body.agentemail, .save newUser], signed := [] }
    | .ok st' =>
      match jwt.sign { id := newUser._id, role := newUser.role } cfg.JWT_SECRET oneHour now with
      | none =>
        { res := send 500 "Error registering agent", store := st',
          calls := [.findOne body.agentemail, .save newUser], signed := [] }
      | some token =>
        { res := redirect "/agent/dashboard" [.set "token" token true], store := st',
          calls := [.findOne body.agentemail, .save newUser], signed := [token] }

/-- Handler of `router.get('/dashboard')`. -/
def getDashboard (st : Store) (user : User) : Outcome :=
  if user.role ≠ some "agent" then forbidden st
  else
    { res := render "agent_dashboard" [("agentname", user.username)], store := st,
      calls := [], signed := [] }

/-- Handler of `router.get('/clients')`. -/
def getClients (st : Store) (user : User) : Outcome :=
  if user.role ≠ some "agent" then forbidden st
  else
    { res := render "agent_clients" [("agentname", user.username)], store := st,
      calls := [], signed := [] }

/-- Handler of `router.get('/services')`. -/
def getServices (st : Store) (user : User) : Outcome :=
  if user.role ≠ some "agent" then forbidden st
  else
    { res := render "agent_services" [("agentname", user.username)], store := st,
      calls := [], signed := [] }

/-- Handler of `router.get('/offers')`. -/
def getOffers (st : Store) (user : User) : Outcome :=
  if user.role ≠ some "agent" then forbidden st
  else
    { res := render "agent_offers" [("agentname", user.username)], store := st,
      calls := [], signed := [] }

/-- Handler of `router.get('/packages')`. -/
def getPackages (st : Store) (user : User) : Outcome :=
  if user.role ≠ some "agent" then forbidden st
  else
    { res := render "agent_packages" [("agentname", user.username)], store := st,
      calls := [], signed := [] }

/-- Handler of `router.get('/profile')`. -/
def getProfile (st : Store) (user : User) : Outcome :=
  if user.role ≠ some "agent" then forbidden st
  else
    { res := render "agent_profile" [("agentname", user.username)], store := st,
      calls := [], signed := [] }

/-- Handler of `router.get('/history')`. -/
def getHistory (st : Store) (user : User) : Outcome :=
  if user.role ≠ some "agent" then forbidden st
  else
    { res := render "agent_history" [("agentname", user.username)], store := st,
      calls := [], signed := [] }

/-- Handler of `router.get('/privacy')`. -/
def getPrivacy (st : Store) (user : User) : Outcome :=
  if user.role ≠ some "agent" then forbidden st
  else
    { res := render "agent/privacy" [("agentname", user.username)], store := st,
      calls := [], signed := [] }

/-- The update document `POST /profile` builds from `req.body`. -/
def profileUpdate (body : ProfileBody) : Update :=
  { username := body.agentname
    email := body.agentemail
    agentId := body.agentid
    phone := body.phone
    agency := body.agency
    bio := body.bio }

/-- The locals both `POST /profile` and `POST /change-password` pass to the view
`agent_profile`: the six display fields of `u` and one message. -/
def profileLocals (u : User) (messageKey message : String) : List (String × Option String) :=
  [("agentname", u.username), ("agentemail", u.email), ("agentid", u.agentId),
   ("phone", u.phone), ("agency", u.agency), ("bio", u.bio), (messageKey, some message)]

/-- Handler of `router.post('/profile')`. -/
def postProfile (cfg : Config) (st : Store) (user : User) (body : ProfileBody) : Outcome :=
  if user.role ≠ some "agent" then forbidden st
  else
    let upd := profileUpdate body
    match findByIdAndUpdate cfg st user._id upd with
    | .error _ =>
      { res := send 500 "Error updating profile", store := st,
        calls := [.findByIdAndUpdate user._id upd], signed := [] }
    | .ok (none, st') =>
      { res := send 404 "Agent not found", store := st',
        calls := [.findByIdAndUpdate user._id upd], signed := [] }
    | .ok (some updatedUser, st') =>
      { res := render "agent_profile"
          (profileLocals updatedUser "successMessage" "Profile updated successfully"),
        store := st', calls := [.findByIdAndUpdate user._id upd], signed := [] }

/-- Handler of `router.post('/change-password')`. -/
def postChangePassword (cfg : Config) (st : Store) (user : User) (body : PasswordBody) :
    Outcome :=
  if user.role ≠ some "agent" then forbidden st
  else
    match cfg.matchPassword user body.currentPassword with
    | none =>
      { res := send 500 "Error changing password", store := st,
        calls := [.matchPassword user._id body.currentPassword], signed := [] }
    | some false =>
      { res := render "agent_profile"
          (profileLocals user "errorMessage" "Current password is incorrect"),
        store := st, calls := [.matchPassword user._id body.currentPassword], signed := [] }
    | some true =>
      let user := { user with password := body.newPassword }
      match saveModified cfg st user with
      | .error _ =>
        { res := send 500 "Error changing password", store := st,
          calls := [.matchPassword user._id body.currentPassword, .save user], signed := [] }
      | .ok st' =>
        { res := render "agent_profile"
            (profileLocals user "successMessage" "Password changed successfully"),
          store := st',
          calls := [.matchPassword user._id body.currentPassword, .save user], signed := [] }

/-- Handler of `router.post('/delete-account')`.  The delete has no failure that depends on
the data, so the `catch` branch (500 `Error deleting account`) is not reached here. -/
def postDeleteAccount (st : Store) (user : User) : Outcome :=
  if user.role ≠ some "agent" then forbidden st
  else
    { res := redirect "/login" [.clear "token"], store := findByIdAndDelete st user._id,
      calls := [.findByIdAndDelete user._id], signed := [] }

/-- The protected routes of the router, each with the body it reads. -/
inductive Route where
  | getDashboard
  | getClients
  | getServices
  | getOffers
  | getPackages
  | getProfile
  | getHistory
  | getPrivacy
  | postProfile (body : ProfileBody)
  | postChangePassword (body : PasswordBody)
  | postDeleteAccount
deriving DecidableEq, Repr

/-- Dispatch of a request that has passed `protect` with identity `user`. -/
def handle (cfg : Config) (st : Store) (user : User) : Route → Outcome
  | .getDashboard => getDashboard st user
  | .getClients => getClients st user
  | .getServices => getServices st user
  | .getOffers => getOffers st user
  | .getPackages => getPackages st user
  | .getProfile => getProfile st user
  | .getHistory => getHistory st user
  | .getPrivacy => getPrivacy st user
  | .postProfile body => postProfile cfg st user body
  | .postChangePassword body => postChangePassword cfg st user body
  | .postDeleteAccount => postDeleteAccount st user

/-- Modelled from the spec: Session Middleware (`middleware/auth` is not in the source).
The token is taken from the cookie `token` and verified; the record is loaded by the
subject id of the token; a missing or invalid token, or a record that is not found, is
unauthenticated (`none`) and no handler runs. -/
def protect (cfg : Config) (now : Nat) (st : Store) (cookie : Option Token) : Option User :=
  match cookie with
  | none => none
  | some token =>
    match jwt.verify token cfg.JWT_SECRET now with
    | none => none
    | some payload => findById st payload.id

/-! ## Store invariants -/

/-- No two documents share an `_id` (the primary key of the collection). -/
def idsUnique (st : Store) : Prop := (st.map (fun r => r._id)).Nodup

/-- No two documents share an email. -/
def emailsUnique (st : Store) : Prop := (st.map (fun r => r.email)).Nodup

instance (st : Store) : Decidable (idsUnique st) := by unfold idsUnique; infer_instance

instance (st : Store) : Decidable (emailsUnique st) := by unfold emailsUnique; infer_instance

/-! ## Concrete data used to exercise the handlers -/

/-- A schema without validators, with the signing secret set; passwords are hashed by
prefixing `#`, and compared by hashing the candidate. -/
def plainConfig : Config :=
  { JWT_SECRET := some "s3cret"
    validDoc := fun _ => true
    validUpdate := fun _ => true
    omitUndefined := true
    hash := fun p => "#" ++ p
    matchPassword := fun u p => some (decide (u.password = p.map (fun q => "#" ++ q))) }

/-- The configuration `plainConfig` with `JWT_SECRET` not set in the environment. -/
def unsetSecretConfig : Config := { plainConfig with JWT_SECRET := none }

/-- The configuration `plainConfig` with a schema whose update validators reject an email
without the character `@` (code 64), the malformed email of the spec. -/
def strictConfig : Config :=
  { plainConfig with
    validUpdate := fun upd =>
      match upd.email with
      | none => true
      | some e => e.data.contains (Char.ofNat 64) }

/-- The agent Alice. -/
def alice : User :=
  { _id := 1, username := some "alice", email := some "a@x.com", password := some "#pw1",
    role := some "agent", agentId := some "A-1", agency := some "Acme", phone := some "555",
    bio := none }

/-- The agent Bob. -/
def bob : User :=
  { _id := 2, username := some "bob", email := some "b@x.com", password := some "#pw2",
    role := some "agent", agentId := some "B-7", agency := some "Bolt", phone := some "777",
    bio := some "hi" }

/-- The registration body of Bob. -/
def bobBody : RegisterBody :=
  { agentname := some "bob", agentemail := some "b@x.com", agentpassword := some "pw2",
    agentid := some "B-7", agency := some "Bolt", phone := some "777", role := none }

/-- A customer account, whose role is not `agent`. -/
def carol : User :=
  { _id := 3, username := some "carol", email := some "c@x.com", password := some "#pw3",
    role := some "user", agentId := none, agency := none, phone := none, bio := none }

/-! ## Lookup lemmas -/

theorem findOne_isSome_of_mem {st : Store} {email : Option String} {r : User}
    (hr : r ∈ st) (he : r.email = email) : ∃ r', findOne st email = some r' := by
  have h : (findOne st email).isSome = true := by
    unfold findOne
    rw [List.find?_isSome]
    exact ⟨r, hr, by simp [he]⟩
  exact Option.isSome_iff_exists.mp h

theorem findOne_eq_none_iff {st : Store} {email : Option String} :
    findOne st email = none ↔ ∀ r ∈ st, r.email ≠ email := by
  unfold findOne
  simp [List.find?_eq_none]

theorem findById_eq_none_iff {st : Store} {id : Nat} :
    findById st id = none ↔ ∀ r ∈ st, r._id ≠ id := by
  unfold findById
  simp [List.find?_eq_none]

theorem findById_some_id {st : Store} {id : Nat} {r : User} (h : findById st id = some r) :
    r._id = id := by
  unfold findById at h
  have := List.find?_some h
  simpa using this

/-! ## Lemmas on in-place replacement -/

theorem findById_replaceById {st : Store} {id : Nat} {old doc : User}
    (hfind : findById st id = some old) (hdoc : doc._id = id) :
    findById (replaceById id doc st) id = some doc := by
  induction st with
  | nil => simp [findById] at hfind
  | cons r rs ih =>
    by_cases hr : r._id = id
    · simp [replaceById, hr, findById, hdoc]
    · have hfind' : findById rs id = some old := by
        simpa [findById, List.find?_cons, hr] using hfind
      have := ih hfind'
      simpa [replaceById, hr, findById, List.find?_cons] using this

theorem replaceById_idem {st : Store} {id : Nat} {doc : User} (hdoc : doc._id = id) :
    replaceById id doc (replaceById id doc st) = replaceById id doc st := by
  induction st with
  | nil => rfl
  | cons r rs ih =>
    by_cases hr : r._id = id
    · simp [replaceById, hr, hdoc]
    · simp [replaceById, hr, ih]

theorem any_other_replaceById {st : Store} {id : Nat} {doc : User} (hdoc : doc._id = id)
    (p : User → Bool) :
    (replaceById id doc st).any (fun r => r._id != id && p r) =
      st.any (fun r => r._id != id && p r) := by
  induction st with
  | nil => rfl
  | cons r rs ih =>
    by_cases hr : r._id = id
    · simp [replaceById, hr, hdoc]
    · simp [replaceById, hr, ih]

theorem emailTaken_replaceById {st : Store} {id : Nat} {doc : User} (hdoc : doc._id = id)
    (email : Option String) :
    emailTaken (replaceById id doc st) id email = emailTaken st id email := by
  unfold emailTaken
  exact any_other_replaceById hdoc (fun r => r.email == email)

theorem replaceById_forall₂ {id : Nat} {doc : User} (R : User → User → Prop)
    (hrefl : ∀ r, R r r) (st : Store)
    (hdoc : ∀ old, findById st id = some old → R old doc) :
    List.Forall₂ R st (replaceById id doc st) := by
  induction st with
  | nil => exact List.Forall₂.nil
  | cons r rs ih =>
    by_cases hr : r._id = id
    · simp only [replaceById, hr, beq_self_eq_true, if_true]
      exact List.Forall₂.cons (hdoc r (by simp [findById, hr]))
        (List.forall₂_same.mpr fun x _ => hrefl x)
    · have hne : (r._id == id) = false := by simpa using hr
      simp only [replaceById, hne]
      refine List.Forall₂.cons (hrefl r) (ih fun old hold => hdoc old ?_)
      simpa [findById, List.find?_cons, hne] using hold

theorem setField_idem (o : Bool) (old new : Option String) :
    setField o (setField o old new) new = setField o old new := by
  cases new <;> cases o <;> simp [setField]

theorem applyUpdate_idem (cfg : Config) (old : User) (upd : Update) :
    applyUpdate cfg (applyUpdate cfg old upd) upd = applyUpdate cfg old upd := by
  simp [applyUpdate, setField_idem]

/-! ## The role check -/

/-- C1. On every protected agent route, an identity whose role is anything other than
`agent` (any other string, or no role at all) gets status 403 with the text `Forbidden`;
no view is rendered, the store is unchanged, no store call is made, nothing is signed and
no cookie is touched. -/
theorem handle_forbidden_of_role_ne_agent (cfg : Config) (st : Store) (user : User)
    (route : Route) (hrole : user.role ≠ some "agent") :
    handle cfg st user route =
      { res := { status := 403, body := .text "Forbidden", cookies := [] },
        store := st, calls := [], signed := [] } := by
  cases route <;>
    simp [handle, getDashboard, getClients, getServices, getOffers, getPackages, getProfile,
      getHistory, getPrivacy, postProfile, postChangePassword, postDeleteAccount, hrole,
      forbidden, send]

/-- Witness of C1: Carol, whose role is `user`, posts a profile update to a store that
holds her record. -/
theorem handle_forbidden_of_role_ne_agent_witness :
    carol.role ≠ some "agent" ∧
    handle plainConfig [alice, carol] carol
        (.postProfile { agentname := some "x", agentemail := some "y", agentid := none,
                        phone := none, agency := none, bio := none }) =
      { res := { status := 403, body := .text "Forbidden", cookies := [] },
        store := [alice, carol], calls := [], signed := [] } :=
  ⟨by decide, handle_forbidden_of_role_ne_agent plainConfig [alice, carol] carol _ (by decide)⟩

/-! ## Registration -/

/-- C2. When a record of the store already has the email of the request, `POST /register`
answers 400 with the text `Agent with this email already exists`; the store is unchanged,
the only store call is the lookup (nothing is saved), no token is signed and no cookie is
set. -/
theorem register_conflict (cfg : Config) (now newId : Nat) (st : Store) (body : RegisterBody)
    (r : User) (hr : r ∈ st) (he : r.email = body.agentemail) :
    register cfg now newId st body =
      { res := { status := 400, body := .text "Agent with this email already exists",
                 cookies := [] },
        store := st, calls := [.findOne body.agentemail], signed := [] } := by
  obtain ⟨r', hr'⟩ := findOne_isSome_of_mem hr he
  simp [register, hr', send]

/-- Witness of C2: a second registration with the email of Alice. -/
theorem register_conflict_witness :
    alice ∈ [alice, bob] ∧ alice.email = some "a@x.com" ∧
    register plainConfig 1000 9 [alice, bob]
        { agentname := some "mallory", agentemail := some "a@x.com",
          agentpassword := some "pw", agentid := none, agency := none, phone := none,
          role := none } =
      { res := { status := 400, body := .text "Agent with this email already exists",
                 cookies := [] },
        store := [alice, bob], calls := [.findOne (some "a@x.com")], signed := [] } :=
  ⟨by decide, rfl,
    register_conflict plainConfig 1000 9 [alice, bob] _ alice (by decide) rfl⟩

/-- The store after a save that returned: the document, with its password hashed, is
appended. -/
theorem saveNew_ok {cfg : Config} {st st' : Store} {doc : User}
    (h : saveNew cfg st doc = .ok st') :
    st' = st ++ [{ doc with password := doc.password.map cfg.hash }] := by
  unfold saveNew at h
  split at h
  · cases h
  · split at h
    · cases h
    · split at h
      · cases h
      · injection h with h
        exact h.symm

/-- C3 (counterexample). With `JWT_SECRET` not set, Bob registers with an email no record
has and the save returns: the record is stored, but `jwt.sign` throws, so the response is
500 `Error registering agent`, no token is signed and no cookie is set. -/
theorem register_unset_secret_fails :
    (∀ r ∈ [alice], r.email ≠ bobBody.agentemail) ∧
    saveNew unsetSecretConfig [alice] (newUser 2 bobBody) = .ok [alice, { bob with bio := none }] ∧
    register unsetSecretConfig 1000 2 [alice] bobBody =
      { res := { status := 500, body := .text "Error registering agent", cookies := [] },
        store := [alice, { bob with bio := none }],
        calls := [.findOne (some "b@x.com"), .save (newUser 2 bobBody)],
        signed := [] } := by
  refine ⟨by decide, rfl, by decide⟩

/-- C3 (amended). When no record of the store has the email of the request and the save
does not fault, `POST /register` appends exactly one record: its role is `agent`, its
username, email, agentId, agency and phone are `agentname`, `agentemail`, `agentid`,
`agency` and `phone`, and its password is the hash of `agentpassword`.  When moreover
`JWT_SECRET` is set and not empty, it signs one token with that secret, whose claims are
the id of that record and the role `agent`, issued at the time of the request and expiring
3600 seconds later; it sets that token as the HTTP-only cookie `token` and redirects (302)
to `/agent/dashboard`. -/
theorem register_success (cfg : Config) (now newId : Nat) (st st' : Store)
    (body : RegisterBody)
    (hfree : ∀ r ∈ st, r.email ≠ body.agentemail)
    (hsave : saveNew cfg st (newUser newId body) = .ok st') :
    (register cfg now newId st body).store =
      st ++ [{ _id := newId, username := body.agentname, email := body.agentemail,
               password := body.agentpassword.map cfg.hash, role := some "agent",
               agentId := body.agentid, agency := body.agency, phone := body.phone,
               bio := none }] ∧
    ∀ secret : String, cfg.JWT_SECRET = some secret → secret ≠ "" →
      (register cfg now newId st body).signed =
        [{ id := newId, role := some "agent", iat := now, exp := now + 3600,
           key := secret }] ∧
      (register cfg now newId st body).res =
        { status := 302, body := .redirect "/agent/dashboard",
          cookies := [.set "token"
            { id := newId, role := some "agent", iat := now, exp := now + 3600,
              key := secret } true] } := by
  have hnone : findOne st body.agentemail = none := findOne_eq_none_iff.mpr hfree
  have hst' := saveNew_ok hsave
  subst hst'
  constructor
  · simp only [register, hnone, hsave]
    cases jwt.sign { id := (newUser newId body)._id, role := (newUser newId body).role }
        cfg.JWT_SECRET oneHour now <;> simp [newUser]
  · intro secret hsecret hne
    simp only [register, hnone, hsave]
    simp [jwt.sign, hsecret, hne, newUser, oneHour, redirect]

/-- Witness of C3: with the secret set, Bob registers in a store that holds Alice only,
with a body that also carries `role: 'admin'`; the record added has the role `agent`. -/
theorem register_success_witness :
    (∀ r ∈ [alice], r.email ≠ some "b@x.com") ∧
    (register plainConfig 1000 2 [alice]
        { agentname := some "bob", agentemail := some "b@x.com", agentpassword := some "pw2",
          agentid := some "B-7", agency := some "Bolt", phone := some "777",
          role := some "admin" }).store =
      [alice,
       { _id := 2, username := some "bob", email := some "b@x.com", password := some "#pw2",
         role := some "agent", agentId := some "B-7", agency := some "Bolt",
         phone := some "777", bio := none }] ∧
    (register plainConfig 1000 2 [alice]
        { agentname := some "bob", agentemail := some "b@x.com", agentpassword := some "pw2",
          agentid := some "B-7", agency := some "Bolt", phone := some "777",
          role := some "admin" }).res =
      { status := 302, body := .redirect "/agent/dashboard",
        cookies := [.set "token"
          { id := 2, role := some "agent", iat := 1000, exp := 4600, key := "s3cret" }
          true] } :=
  have h := register_success plainConfig 1000 2 [alice] _
      { agentname := some "bob", agentemail := some "b@x.com", agentpassword := some "pw2",
        agentid := some "B-7", agency := some "Bolt", phone := some "777",
        role := some "admin" }
      (by decide) rfl
  ⟨by decide, h.1, (h.2 "s3cret" rfl (by decide)).2⟩

/-! ## Password change -/

/-- C4. For an agent whose `currentPassword` does not match (`matchPassword` returns
false), `POST /change-password` leaves the store as it was, so the stored password of the
caller is the same afterwards; no save is made; and the response is the view
`agent_profile` with status 200, carrying the display fields of the caller and the
`errorMessage` `Current password is incorrect`. -/
theorem changePassword_mismatch (cfg : Config) (st : Store) (user : User)
    (body : PasswordBody) (hrole : user.role = some "agent")
    (hmatch : cfg.matchPassword user body.currentPassword = some false) :
    (postChangePassword cfg st user body).store = st ∧
    (findById (postChangePassword cfg st user body).store user._id).map (fun r => r.password) =
      (findById st user._id).map (fun r => r.password) ∧
    (∀ doc, StoreCall.save doc ∉ (postChangePassword cfg st user body).calls) ∧
    (postChangePassword cfg st user body).res =
      { status := 200,
        body := .view "agent_profile"
          [("agentname", user.username), ("agentemail", user.email),
           ("agentid", user.agentId), ("phone", user.phone), ("agency", user.agency),
           ("bio", user.bio), ("errorMessage", some "Current password is incorrect")],
        cookies := [] } := by
  simp [postChangePassword, hrole, hmatch, render, profileLocals]

/-- Witness of C4: Alice gives a wrong current password. -/
theorem changePassword_mismatch_witness :
    alice.role = some "agent" ∧
    plainConfig.matchPassword alice (some "wrong") = some false ∧
    (postChangePassword plainConfig [alice, bob] alice
        { currentPassword := some "wrong", newPassword := some "new" }).store = [alice, bob] :=
  ⟨rfl, by decide,
    (changePassword_mismatch plainConfig [alice, bob] alice
      { currentPassword := some "wrong", newPassword := some "new" } rfl (by decide)).1⟩

/-! ## The profile view -/

/-- What `GET /profile` passes to the view for an agent: the username and nothing else. -/
theorem getProfile_agent (st : Store) (user : User) (hrole : user.role = some "agent") :
    getProfile st user =
      { res := { status := 200, body := .view "agent_profile" [("agentname", user.username)],
                 cookies := [] },
        store := st, calls := [], signed := [] } := by
  simp [getProfile, hrole, render]

/-- C8 (evaluation of the code). For the agent Alice, `GET /profile` renders the view
`agent_profile` with the single local `agentname`: her username is passed, her email
`a@x.com` is not among the values passed to the view. -/
theorem getProfile_alice_passes_no_email :
    (getProfile [alice] alice).res =
      { status := 200, body := .view "agent_profile" [("agentname", some "alice")],
        cookies := [] } ∧
    ∀ locals, (getProfile [alice] alice).res.body = .view "agent_profile" locals →
      ∀ kv ∈ locals, kv.2 ≠ alice.email := by
  refine ⟨by decide, ?_⟩
  intro locals h kv hkv
  have h' : locals = [("agentname", some "alice")] := by
    have : (getProfile [alice] alice).res.body =
        .view "agent_profile" [("agentname", some "alice")] := by decide
    rw [this] at h
    injection h with _ h2
    exact h2.symm
  subst h'
  simp at hkv
  subst hkv
  decide

/-! ## Profile update -/

/-- The result of `findByIdAndUpdate` on the store it has just written, with the same
update: the same document is returned and the store stays as it is. -/
theorem findByIdAndUpdate_again {cfg : Config} {st st' : Store} {id : Nat} {upd : Update}
    {res : Option User} (h : findByIdAndUpdate cfg st id upd = .ok (res, st')) :
    findByIdAndUpdate cfg st' id upd = .ok (res, st') := by
  unfold findByIdAndUpdate at h ⊢
  split at h
  · cases h
  · rename_i hvalid
    rw [if_neg hvalid]
    cases hfind : findById st id with
    | none =>
      rw [hfind] at h
      cases h
      simp [hfind]
    | some old =>
      rw [hfind] at h
      simp only at h
      split at h
      · cases h
      · rename_i hidx
        cases h
        have hid : (applyUpdate cfg old upd)._id = id := by
          simpa [applyUpdate] using findById_some_id hfind
        rw [findById_replaceById hfind hid]
        simp only [applyUpdate_idem]
        rw [emailTaken_replaceById hid]
        rw [if_neg hidx, replaceById_idem hid]

/-- C5. `POST /profile` is idempotent: if the same field set is posted a second time to
the store the first request left (by the same caller: same id and role, whatever record
the session middleware attached the second time), the store is the same as after the first
request and the second response is identical to the first, so both render the same view
with the same values. -/
theorem postProfile_idempotent (cfg : Config) (st : Store) (user user' : User)
    (body : ProfileBody) (hid : user'._id = user._id) (hrole : user'.role = user.role) :
    (postProfile cfg (postProfile cfg st user body).store user' body).store =
      (postProfile cfg st user body).store ∧
    (postProfile cfg (postProfile cfg st user body).store user' body).res =
      (postProfile cfg st user body).res := by
  by_cases hagent : user.role = some "agent"
  · have hagent' : user'.role = some "agent" := hrole.trans hagent
    cases h : findByIdAndUpdate cfg st user._id (profileUpdate body) with
    | error e => simp [postProfile, hagent, hagent', h, hid]
    | ok p =>
      obtain ⟨res, st'⟩ := p
      have h2 := findByIdAndUpdate_again h
      cases res with
      | none => simp [postProfile, hagent, hagent', h, h2, hid]
      | some doc => simp [postProfile, hagent, hagent', h, h2, hid]
  · have hagent' : user'.role ≠ some "agent" := by rw [hrole]; exact hagent
    simp [postProfile, hagent, hagent', forbidden]

/-- Witness of C5: Alice posts the same profile twice; the second time the identity is
her record as updated by the first request. -/
theorem postProfile_idempotent_witness :
    let body : ProfileBody :=
      { agentname := some "alicia", agentemail := some "alicia@x.com", agentid := none,
        phone := some "556", agency := some "Acme", bio := some "hello" }
    let alicia : User :=
      { alice with username := some "alicia", email := some "alicia@x.com",
                   phone := some "556", bio := some "hello" }
    alicia._id = alice._id ∧ alicia.role = alice.role ∧
    (postProfile plainConfig [alice, bob] alice body).store = [alicia, bob] ∧
    (postProfile plainConfig (postProfile plainConfig [alice, bob] alice body).store
        alicia body).store = (postProfile plainConfig [alice, bob] alice body).store :=
  ⟨rfl, rfl, by decide,
    (postProfile_idempotent plainConfig [alice, bob] alice
      { alice with username := some "alicia", email := some "alicia@x.com",
                   phone := some "556", bio := some "hello" }
      { agentname := some "alicia", agentemail := some "alicia@x.com", agentid := none,
        phone := some "556", agency := some "Acme", bio := some "hello" } rfl rfl).1⟩

/-- C6 (counterexample). Under a schema whose update validators reject a malformed email,
Alice, whose record is no longer in the store, posts a profile update with the email
`alice.x.com`: the validators throw before the lookup and the response is 500
`Error updating profile`, not 404 `Agent not found`. -/
theorem postProfile_gone_rejected_update :
    alice.role = some "agent" ∧ (∀ r ∈ [bob, carol], r._id ≠ alice._id) ∧
    postProfile strictConfig [bob, carol] alice
        { agentname := some "alice", agentemail := some "alice.x.com", agentid := none,
          phone := none, agency := none, bio := none } =
      { res := { status := 500, body := .text "Error updating profile", cookies := [] },
        store := [bob, carol],
        calls := [.findByIdAndUpdate 1
          { username := some "alice", email := some "alice.x.com", agentId := none,
            phone := none, agency := none, bio := none }],
        signed := [] } ∧
    (postProfile strictConfig [bob, carol] alice
        { agentname := some "alice", agentemail := some "alice.x.com", agentid := none,
          phone := none, agency := none, bio := none }).res.status ≠ 404 := by
  refine ⟨rfl, by decide, by decide, by decide⟩

/-- C6 (amended). For an agent whose record is not in the store, `POST /profile` renders
no view and leaves the store unchanged, so that afterwards there is still no record with
the id of the caller.  When the update passes the update validators of the schema, the
response is 404 with the text `Agent not found`; when they reject it, the response is 500
with the text `Error updating profile`.  In both cases the only store call is the update. -/
theorem postProfile_not_found (cfg : Config) (st : Store) (user : User) (body : ProfileBody)
    (hrole : user.role = some "agent") (hgone : ∀ r ∈ st, r._id ≠ user._id) :
    (cfg.validUpdate (profileUpdate body) = true →
      postProfile cfg st user body =
        { res := { status := 404, body := .text "Agent not found", cookies := [] },
          store := st, calls := [.findByIdAndUpdate user._id (profileUpdate body)],
          signed := [] }) ∧
    (cfg.validUpdate (profileUpdate body) = false →
      postProfile cfg st user body =
        { res := { status := 500, body := .text "Error updating profile", cookies := [] },
          store := st, calls := [.findByIdAndUpdate user._id (profileUpdate body)],
          signed := [] }) ∧
    (postProfile cfg st user body).store = st ∧
    findById (postProfile cfg st user body).store user._id = none ∧
    (∀ name locals, (postProfile cfg st user body).res.body ≠ .view name locals) := by
  have hnone : findById st user._id = none := findById_eq_none_iff.mpr hgone
  by_cases hvalid : cfg.validUpdate (profileUpdate body) = true
  · have hupd : findByIdAndUpdate cfg st user._id (profileUpdate body) = .ok (none, st) := by
      simp [findByIdAndUpdate, hvalid, hnone]
    simp [postProfile, hrole, hupd, send, hnone, hvalid]
  · have hupd : findByIdAndUpdate cfg st user._id (profileUpdate body) =
        .error .validation := by
      simp [findByIdAndUpdate, hvalid]
    simp [postProfile, hrole, hupd, send, hnone, hvalid]

/-- Witness of C6: Alice posts a valid profile update after her record has been deleted. -/
theorem postProfile_not_found_witness :
    alice.role = some "agent" ∧ (∀ r ∈ [bob, carol], r._id ≠ alice._id) ∧
    postProfile strictConfig [bob, carol] alice
        { agentname := some "alice", agentemail := some "a@x.com", agentid := none,
          phone := none, agency := none, bio := none } =
      { res := { status := 404, body := .text "Agent not found", cookies := [] },
        store := [bob, carol],
        calls := [.findByIdAndUpdate 1
          { username := some "alice", email := some "a@x.com", agentId := none,
            phone := none, agency := none, bio := none }],
        signed := [] } :=
  ⟨rfl, by decide,
    (postProfile_not_found strictConfig [bob, carol] alice
      { agentname := some "alice", agentemail := some "a@x.com", agentid := none,
        phone := none, agency := none, bio := none } rfl (by decide)).1 (by decide)⟩

/-- The store after `POST /profile`: either untouched, or the record of the caller
replaced in place by the updated document. -/
theorem postProfile_store (cfg : Config) (st : Store) (user : User) (body : ProfileBody) :
    (postProfile cfg st user body).store = st ∨
    ∃ old, findById st user._id = some old ∧
      (postProfile cfg st user body).store =
        replaceById user._id (applyUpdate cfg old (profileUpdate body)) st := by
  by_cases hagent : user.role = some "agent"
  · cases h : findByIdAndUpdate cfg st user._id (profileUpdate body) with
    | error e => exact Or.inl (by simp [postProfile, hagent, h])
    | ok p =>
      obtain ⟨res, st'⟩ := p
      have hstore : (postProfile cfg st user body).store = st' := by
        cases res <;> simp [postProfile, hagent, h]
      rw [hstore]
      unfold findByIdAndUpdate at h
      split at h
      · cases h
      · cases hfind : findById st user._id with
        | none =>
          rw [hfind] at h
          cases h
          exact Or.inl rfl
        | some old =>
          rw [hfind] at h
          simp only at h
          split at h
          · cases h
          · cases h
            exact Or.inr ⟨old, rfl, rfl⟩
  · exact Or.inl (by simp [postProfile, hagent, forbidden])

/-- C10. After `POST /profile`, the store has the same records in the same order, each
with the id, the role and the stored password it had before, and every record whose id is
not the id of the caller is exactly as before: only the username, email, agentId, phone,
agency and bio of the caller can differ. -/
theorem postProfile_frame (cfg : Config) (st : Store) (user : User) (body : ProfileBody) :
    List.Forall₂
      (fun before after =>
        after._id = before._id ∧ after.role = before.role ∧
        after.password = before.password ∧ (before._id ≠ user._id → after = before))
      st (postProfile cfg st user body).store := by
  rcases postProfile_store cfg st user body with h | ⟨old, hfind, h⟩
  · rw [h]
    exact List.forall₂_same.mpr fun x _ => ⟨rfl, rfl, rfl, fun _ => rfl⟩
  · rw [h]
    refine replaceById_forall₂ _ (fun r => ⟨rfl, rfl, rfl, fun _ => rfl⟩) st ?_
    intro old' hold'
    rw [hfind] at hold'
    cases hold'
    exact ⟨rfl, rfl, rfl, fun hne => absurd (findById_some_id hfind) hne⟩

/-! ## Account deletion -/

theorem eraseP_eq_filter_of_idsUnique {st : Store} (id : Nat) (h : idsUnique st) :
    st.eraseP (fun r => r._id == id) = st.filter (fun r => r._id != id) := by
  induction st with
  | nil => rfl
  | cons r rs ih =>
    have hcons : r._id ∉ rs.map (fun r => r._id) ∧ idsUnique rs := by
      simpa [idsUnique] using h
    by_cases hr : r._id = id
    · have hrs : ∀ x ∈ rs, (x._id != id) = true := by
        intro x hx
        have : x._id ≠ r._id := fun hxe =>
          hcons.1 (List.mem_map.mpr ⟨x, hx, hxe⟩)
        simpa [hr] using this
      simp [List.eraseP_cons, hr, List.filter_eq_self.mpr hrs]
    · simp [List.eraseP_cons, hr, ih hcons.2]

theorem findById_filter_ne (st : Store) (id : Nat) :
    findById (st.filter (fun r => r._id != id)) id = none := by
  rw [findById_eq_none_iff]
  intro r hr
  simpa using (List.mem_filter.mp hr).2

/-- C7. In a store whose ids are distinct, `POST /delete-account` by an agent removes
exactly the record with the id of the caller, so that a later lookup by that id finds no
record and the session middleware treats any token for that id as unauthenticated; the
response clears the cookie `token` and redirects (302) to `/login`. -/
theorem deleteAccount_removes_caller (cfg : Config) (st : Store) (user : User)
    (hrole : user.role = some "agent") (hids : idsUnique st) :
    (postDeleteAccount st user).store = st.filter (fun r => r._id != user._id) ∧
    findById (postDeleteAccount st user).store user._id = none ∧
    (∀ (now : Nat) (token : Token), token.id = user._id →
      protect cfg now (postDeleteAccount st user).store (some token) = none) ∧
    (postDeleteAccount st user).res =
      { status := 302, body := .redirect "/login", cookies := [.clear "token"] } := by
  have hstore : (postDeleteAccount st user).store = st.filter (fun r => r._id != user._id) := by
    simp [postDeleteAccount, hrole, findByIdAndDelete, eraseP_eq_filter_of_idsUnique _ hids]
  refine ⟨hstore, ?_, ?_, ?_⟩
  · rw [hstore]
    exact findById_filter_ne st user._id
  · intro now token htoken
    rw [hstore]
    simp only [protect, jwt.verify]
    split_ifs
    · simp [htoken, findById_filter_ne]
    · rfl
  · simp [postDeleteAccount, hrole, redirect]

/-- Witness of C7: Alice deletes her account and her token, still unexpired, is replayed. -/
theorem deleteAccount_removes_caller_witness :
    alice.role = some "agent" ∧ idsUnique [alice, bob, carol] ∧
    (postDeleteAccount [alice, bob, carol] alice).store = [bob, carol] ∧
    jwt.sign { id := alice._id, role := alice.role } (some "s3cret") oneHour 1000 =
      some { id := 1, role := some "agent", iat := 1000, exp := 4600, key := "s3cret" } ∧
    protect plainConfig 1500 (postDeleteAccount [alice, bob, carol] alice).store
      (some { id := 1, role := some "agent", iat := 1000, exp := 4600, key := "s3cret" }) =
      none :=
  ⟨rfl, by decide, by decide, by decide,
    (deleteAccount_removes_caller plainConfig [alice, bob, carol] alice rfl (by decide)).2.2.1
      1500 _ rfl⟩

/-! ## Uniqueness of emails -/

theorem map_replaceById {β : Type} (f : User → β) {id : Nat} {doc : User} (st : Store)
    (h : ∀ old, findById st id = some old → f doc = f old) :
    (replaceById id doc st).map f = st.map f := by
  induction st with
  | nil => rfl
  | cons r rs ih =>
    by_cases hr : r._id = id
    · have := h r (by simp [findById, hr])
      simp [replaceById, hr, this]
    · have hne : (r._id == id) = false := by simpa using hr
      have ih' := ih fun old hold => h old (by simpa [findById, List.find?_cons, hne] using hold)
      simp [replaceById, hne, ih']

theorem mem_replaceById {id : Nat} {doc x : User} {st : Store}
    (h : x ∈ replaceById id doc st) : x ∈ st ∨ x = doc := by
  induction st with
  | nil => simp [replaceById] at h
  | cons r rs ih =>
    by_cases hr : r._id = id
    · simp only [replaceById, hr, beq_self_eq_true, if_true, List.mem_cons] at h
      rcases h with h | h
      · exact Or.inr h
      · exact Or.inl (List.mem_cons_of_mem _ h)
    · have hne : (r._id == id) = false := by simpa using hr
      simp only [replaceById, hne, Bool.false_eq_true, if_false, List.mem_cons] at h
      rcases h with h | h
      · exact Or.inl (h ▸ List.mem_cons_self _ _)
      · rcases ih h with h' | h'
        · exact Or.inl (List.mem_cons_of_mem _ h')
        · exact Or.inr h'

/-- Replacing the record `id` by a document whose email no other record holds keeps the
emails distinct. -/
theorem emailsUnique_replaceById {id : Nat} {doc : User} {st : Store}
    (hids : idsUnique st) (hemails : emailsUnique st)
    (hother : ∀ r ∈ st, r._id ≠ id → r.email ≠ doc.email) :
    emailsUnique (replaceById id doc st) := by
  induction st with
  | nil => simpa [replaceById] using hemails
  | cons r rs ih =>
    have hi : r._id ∉ rs.map (fun r => r._id) ∧ idsUnique rs := by
      simpa [idsUnique] using hids
    have he : r.email ∉ rs.map (fun r => r.email) ∧ emailsUnique rs := by
      simpa [emailsUnique] using hemails
    by_cases hr : r._id = id
    · have hdoc : doc.email ∉ rs.map (fun r => r.email) := by
        intro hmem
        obtain ⟨x, hx, hxe⟩ := List.mem_map.mp hmem
        have hxid : x._id ≠ id := fun hxid =>
          hi.1 (List.mem_map.mpr ⟨x, hx, hxid.trans hr.symm⟩)
        exact hother x (List.mem_cons_of_mem _ hx) hxid hxe
      simp only [replaceById, hr, beq_self_eq_true, if_true]
      exact List.nodup_cons.mpr ⟨hdoc, he.2⟩
    · have hne : (r._id == id) = false := by simpa using hr
      have ih' := ih hi.2 he.2 fun x hx => hother x (List.mem_cons_of_mem _ hx)
      have hnot : r.email ∉ (replaceById id doc rs).map (fun r => r.email) := by
        intro hmem
        obtain ⟨x, hx, hxe⟩ := List.mem_map.mp hmem
        rcases mem_replaceById hx with hx' | hx'
        · exact he.1 (List.mem_map.mpr ⟨x, hx', hxe⟩)
        · subst hx'
          exact hother r (List.mem_cons_self _ _) hr hxe.symm
      simp only [replaceById, hne, Bool.false_eq_true, if_false]
      exact List.nodup_cons.mpr ⟨hnot, ih'⟩

/-- The store after `POST /register`: either untouched, or the new document appended, and
then no record had its email or its id. -/
theorem register_store (cfg : Config) (now newId : Nat) (st : Store) (body : RegisterBody) :
    (register cfg now newId st body).store = st ∨
    ((∀ r ∈ st, r.email ≠ body.agentemail) ∧ (∀ r ∈ st, r._id ≠ newId) ∧
      (register cfg now newId st body).store =
        st ++ [{ newUser newId body with
                 password := (newUser newId body).password.map cfg.hash }]) := by
  cases hfind : findOne st body.agentemail with
  | some r => exact Or.inl (by simp [register, hfind])
  | none =>
    cases hsave : saveNew cfg st (newUser newId body) with
    | error e => exact Or.inl (by simp [register, hfind, hsave])
    | ok st' =>
      have hst' := saveNew_ok hsave
      have hid : ∀ r ∈ st, r._id ≠ newId := by
        unfold saveNew at hsave
        split at hsave
        · cases hsave
        · split at hsave
          · cases hsave
          · rename_i hany
            intro r hr hrid
            exact hany (List.any_eq_true.mpr ⟨r, hr, by simp [newUser, hrid]⟩)
      refine Or.inr ⟨findOne_eq_none_iff.mp hfind, hid, ?_⟩
      simp only [register, hfind, hsave]
      cases jwt.sign { id := (newUser newId body)._id, role := (newUser newId body).role }
          cfg.JWT_SECRET oneHour now <;> exact hst'

/-- Registration keeps the emails distinct: the handler looks the email up before it
saves. -/
theorem register_preserves_emailsUnique (cfg : Config) (now newId : Nat) (st : Store)
    (body : RegisterBody) (h : emailsUnique st) :
    emailsUnique (register cfg now newId st body).store := by
  rcases register_store cfg now newId st body with hst | ⟨hfree, _, hst⟩
  · rw [hst]; exact h
  · rw [hst]
    have hnot : body.agentemail ∉ st.map (fun r => r.email) := by
      intro hmem
      obtain ⟨x, hx, hxe⟩ := List.mem_map.mp hmem
      exact hfree x hx hxe
    unfold emailsUnique at h ⊢
    rw [List.map_append, List.nodup_append]
    refine ⟨h, by simp, ?_⟩
    intro a ha hb
    simp [newUser] at hb
    exact hnot (hb ▸ ha)

/-- Registration keeps the ids distinct. -/
theorem register_preserves_idsUnique (cfg : Config) (now newId : Nat) (st : Store)
    (body : RegisterBody) (h : idsUnique st) :
    idsUnique (register cfg now newId st body).store := by
  rcases register_store cfg now newId st body with hst | ⟨_, hid, hst⟩
  · rw [hst]; exact h
  · rw [hst]
    have hnot : newId ∉ st.map (fun r => r._id) := by
      intro hmem
      obtain ⟨x, hx, hxe⟩ := List.mem_map.mp hmem
      exact hid x hx hxe
    unfold idsUnique at h ⊢
    rw [List.map_append, List.nodup_append]
    refine ⟨h, by simp, ?_⟩
    intro a ha hb
    simp [newUser] at hb
    exact hnot (hb ▸ ha)

/-- A password change writes no email and no id. -/
theorem changePassword_preserves_unique (cfg : Config) (st : Store) (user : User)
    (body : PasswordBody) :
    ((postChangePassword cfg st user body).store.map (fun r => r.email) =
        st.map (fun r => r.email)) ∧
    ((postChangePassword cfg st user body).store.map (fun r => r._id) =
        st.map (fun r => r._id)) := by
  unfold postChangePassword
  split
  · exact ⟨rfl, rfl⟩
  · split
    · exact ⟨rfl, rfl⟩
    · exact ⟨rfl, rfl⟩
    · simp only
      cases hsave : saveModified cfg st { user with password := body.newPassword } with
      | error e => exact ⟨rfl, rfl⟩
      | ok st' =>
        simp only
        unfold saveModified at hsave
        split at hsave
        · cases hsave
        · simp only at hsave
          cases hfind : findById st user._id with
          | none => rw [hfind] at hsave; cases hsave
          | some old =>
            rw [hfind] at hsave
            cases hsave
            constructor
            · exact map_replaceById _ st fun old' h' => by
                rw [hfind] at h'; cases h'; rfl
            · exact map_replaceById _ st fun old' h' => by
                rw [hfind] at h'; cases h'; rfl

/-- Account deletion keeps the emails and the ids distinct. -/
theorem deleteAccount_preserves_unique (st : Store) (user : User)
    (hids : idsUnique st) (hemails : emailsUnique st) :
    idsUnique (postDeleteAccount st user).store ∧
    emailsUnique (postDeleteAccount st user).store := by
  have hsub : List.Sublist (postDeleteAccount st user).store st := by
    unfold postDeleteAccount
    split
    · exact List.Sublist.refl _
    · exact List.eraseP_sublist _
  exact ⟨List.Nodup.sublist (hsub.map _) hids, List.Nodup.sublist (hsub.map _) hemails⟩

/-- A profile update writes no id. -/
theorem postProfile_preserves_ids (cfg : Config) (st : Store) (user : User)
    (body : ProfileBody) :
    (postProfile cfg st user body).store.map (fun r => r._id) = st.map (fun r => r._id) := by
  rcases postProfile_store cfg st user body with h | ⟨old, hfind, h⟩
  · rw [h]
  · rw [h]
    exact map_replaceById _ st fun old' h' => by
      rw [hfind] at h'; cases h'; rfl

/-- A profile update keeps the emails distinct: a write that would put the email of another
record on the record of the caller is rejected. -/
theorem postProfile_preserves_emailsUnique (cfg : Config) (st : Store) (user : User)
    (body : ProfileBody) (hids : idsUnique st) (hemails : emailsUnique st) :
    emailsUnique (postProfile cfg st user body).store := by
  unfold postProfile
  split
  · exact hemails
  · simp only
    cases h : findByIdAndUpdate cfg st user._id (profileUpdate body) with
    | error e => exact hemails
    | ok p =>
      obtain ⟨res, st'⟩ := p
      have hstore : emailsUnique st' := by
        unfold findByIdAndUpdate at h
        split at h
        · cases h
        · cases hfind : findById st user._id with
          | none => rw [hfind] at h; cases h; exact hemails
          | some old =>
            rw [hfind] at h
            simp only at h
            split at h
            · cases h
            · rename_i hidx
              cases h
              refine emailsUnique_replaceById hids hemails ?_
              intro r hr hrid hre
              apply hidx
              unfold emailTaken
              exact List.any_eq_true.mpr ⟨r, hr, by simp [hrid, hre]⟩
      cases res <;> exact hstore

/-- The view routes leave the store as it is. -/
theorem handle_store (cfg : Config) (st : Store) (user : User) (route : Route) :
    (handle cfg st user route).store = st ∨
    (∃ body, (handle cfg st user route).store = (postProfile cfg st user body).store) ∨
    (∃ body, (handle cfg st user route).store = (postChangePassword cfg st user body).store) ∨
    (handle cfg st user route).store = (postDeleteAccount st user).store := by
  cases route with
  | postProfile body => exact Or.inr (Or.inl ⟨body, rfl⟩)
  | postChangePassword body => exact Or.inr (Or.inr (Or.inl ⟨body, rfl⟩))
  | postDeleteAccount => exact Or.inr (Or.inr (Or.inr rfl))
  | _ =>
    left
    simp only [handle, getDashboard, getClients, getServices, getOffers, getPackages,
      getProfile, getHistory, getPrivacy, forbidden]
    split <;> rfl

/-- C9. Email uniqueness is an invariant of the store under every handler, the store
being the one the spec describes, with `email` a unique field (a write that would give a
second record the same email is rejected): if the records of the store have distinct ids
and distinct emails before a request, they have distinct ids and distinct emails after any
`POST /register` and after any request on a protected route, in particular after a
`POST /profile` whose `agentemail` is the email of another record, after a
`POST /change-password` and after a `POST /delete-account`. -/
theorem emailsUnique_invariant (cfg : Config) (st : Store)
    (hids : idsUnique st) (hemails : emailsUnique st) :
    (∀ (now newId : Nat) (body : RegisterBody),
      idsUnique (register cfg now newId st body).store ∧
      emailsUnique (register cfg now newId st body).store) ∧
    (∀ (user : User) (route : Route),
      idsUnique (handle cfg st user route).store ∧
      emailsUnique (handle cfg st user route).store) := by
  refine ⟨fun now newId body =>
    ⟨register_preserves_idsUnique cfg now newId st body hids,
     register_preserves_emailsUnique cfg now newId st body hemails⟩, ?_⟩
  intro user route
  rcases handle_store cfg st user route with h | ⟨body, h⟩ | ⟨body, h⟩ | h
  · rw [h]; exact ⟨hids, hemails⟩
  · rw [h]
    refine ⟨?_, postProfile_preserves_emailsUnique cfg st user body hids hemails⟩
    unfold idsUnique
    rw [postProfile_preserves_ids]
    exact hids
  · rw [h]
    have hmaps := changePassword_preserves_unique cfg st user body
    unfold idsUnique emailsUnique
    rw [hmaps.1, hmaps.2]
    exact ⟨hids, hemails⟩
  · rw [h]
    exact deleteAccount_preserves_unique st user hids hemails

/-- Witness of C9: Alice posts a profile update whose `agentemail` is the email of Bob; the
write is rejected (500 `Error updating profile`), the store is unchanged and the emails
are still distinct. -/
theorem emailsUnique_invariant_witness :
    idsUnique [alice, bob] ∧ emailsUnique [alice, bob] ∧
    handle plainConfig [alice, bob] alice
        (.postProfile { agentname := some "alice", agentemail := some "b@x.com",
                        agentid := some "A-1", phone := some "555", agency := some "Acme",
                        bio := none }) =
      { res := { status := 500, body := .text "Error updating profile", cookies := [] },
        store := [alice, bob],
        calls := [.findByIdAndUpdate 1
          { username := some "alice", email := some "b@x.com", agentId := some "A-1",
            phone := some "555", agency := some "Acme", bio := none }],
        signed := [] } ∧
    emailsUnique (handle plainConfig [alice, bob] alice
        (.postProfile { agentname := some "alice", agentemail := some "b@x.com",
                        agentid := some "A-1", phone := some "555", agency := some "Acme",
                        bio := none })).store :=
  ⟨by decide, by decide, by decide,
    ((emailsUnique_invariant plainConfig [alice, bob] (by decide) (by decide)).2 alice
      (.postProfile { agentname := some "alice", agentemail := some "b@x.com",
                      agentid := some "A-1", phone := some "555", agency := some "Acme",
                      bio := none })).2⟩

end Agent
